import Mathlib

/-!
Verification of the Kuba game engine (`KubaGame.py`).

The Python source is shallowly embedded below.  Board cells are the four
marker strings of the source ("X", "W", "B", "R"), the board is the raw
`list[list[cell]]` of the source, and Python list indexing — including
negative-index wraparound and `IndexError` for indices past either end —
is modelled explicitly by `pyIdx`/`pyGetList`/`pySetList`.  Fallible code
runs in `Except PyErr`; `PyErr.keyError` models a Python `KeyError` and
`PyErr.indexError` a Python `IndexError`.  The while loops of
`_move_marble` and `_check_selfdefeating_rule` are modelled with a fuel
parameter; on a 7x7 board every walk finishes (or raises `IndexError`)
well within the supplied fuel, since the cursor moves one step per
iteration and any read further than one full wrap past the board raises.
-/

namespace Kuba

/-- Board cell markers of the source: "X" empty, "W" white, "B" black, "R" red. -/
inductive Cell where
  | X
  | W
  | B
  | R
deriving DecidableEq, Repr

/-- Direction codes of the source: 'F' forward, 'B' back, 'L' left, 'R' right. -/
inductive Dir where
  | F
  | B
  | L
  | R
deriving DecidableEq, Repr

/-- Python exceptions that the engine can raise. -/
inductive PyErr where
  | keyError
  | indexError
deriving DecidableEq, Repr

/-- The raw board, exactly as in the source: a list of rows of cells. -/
abbrev Board := List (List Cell)

/-- Python list-index resolution for a list of length `n`: indices in
`[0, n)` are used directly, indices in `[-n, 0)` wrap to `n + i`, and
anything else is an `IndexError` (`none`). -/
def pyIdx (n : Nat) (i : Int) : Option Nat :=
  if 0 ≤ i ∧ i < (n : Int) then some i.toNat
  else if -(n : Int) ≤ i ∧ i < 0 then some ((n : Int) + i).toNat
  else none

/-- Python `l[i]` on a list, with negative-index wraparound and `IndexError`. -/
def pyGetList {α : Type} (l : List α) (i : Int) : Except PyErr α :=
  match pyIdx l.length i with
  | none => .error .indexError
  | some k =>
    match l.get? k with
    | none => .error .indexError
    | some a => .ok a

/-- Python `l[i] = a` on a list.  In the source every write is preceded by a
successful read of the same index, so the out-of-range case (identity here)
is never reached. -/
def pySetList {α : Type} (l : List α) (i : Int) (a : α) : List α :=
  match pyIdx l.length i with
  | none => l
  | some k => l.set k a

/-- Python `board[i][j]`. -/
def pyGet2 (b : Board) (i j : Int) : Except PyErr Cell :=
  match pyGetList b i with
  | .error e => .error e
  | .ok row => pyGetList row j

/-- Python `board[i][j] = v`. -/
def pySet2 (b : Board) (i j : Int) (v : Cell) : Board :=
  match pyIdx b.length i with
  | none => b
  | some k =>
    match b.get? k with
    | none => b
    | some row => b.set k (pySetList row j v)

/-- Per-iteration cursor displacement of the four while loops of
`_move_marble`: 'F' does `row -= 1`, 'B' does `row += 1`, 'L' does
`column -= 1`, and 'R' (the `else` branch) does `column += 1`. -/
def dirStep (d : Dir) : Int × Int :=
  match d with
  | .F => (-1, 0)
  | .B => (1, 0)
  | .L => (0, -1)
  | .R => (0, 1)

/-- The boundary tests of the four loops: `row == 0` for 'F', `row == 6`
for 'B', `column == 0` for 'L', `column == 6` for 'R'. -/
def atFarEdge (d : Dir) (r c : Int) : Bool :=
  match d with
  | .F => r == 0
  | .B => r == 6
  | .L => c == 0
  | .R => c == 6

/-- The while loop of `_move_marble`: while the traveling marble is not
"X", step the cursor, save the destination cell, write the traveling
marble there, and if the cursor sits on the far boundary and the saved
cell is not "X", that cell is expelled (returned as `some`).  The second
component of the result is the expelled marble, used by the caller for
capture bookkeeping. -/
def pushLoop (d : Dir) : Nat → Board → Int → Int → Cell →
    Except PyErr (Board × Option Cell)
  | 0, _, _, _, _ => .error .indexError
  | fuel + 1, b, r, c, cur =>
    if cur = Cell.X then .ok (b, none)
    else
      match pyGet2 b (r + (dirStep d).1) (c + (dirStep d).2) with
      | .error e => .error e
      | .ok v =>
        if atFarEdge d (r + (dirStep d).1) (c + (dirStep d).2) = true ∧ v ≠ Cell.X then
          .ok (pySet2 b (r + (dirStep d).1) (c + (dirStep d).2) cur, some v)
        else
          pushLoop d fuel (pySet2 b (r + (dirStep d).1) (c + (dirStep d).2) cur)
            (r + (dirStep d).1) (c + (dirStep d).2) v

/-- The body of `_move_marble`: read the pushed marble, clear its cell to
"X", then run the sliding walk.  Returns the updated board and the
expelled marble, if any. -/
def moveMarble (b : Board) (pos : Int × Int) (d : Dir) :
    Except PyErr (Board × Option Cell) :=
  match pyGet2 b pos.1 pos.2 with
  | .error e => .error e
  | .ok cur => pushLoop d 20 (pySet2 b pos.1 pos.2 Cell.X) pos.1 pos.2 cur

/-- One player record: name, chosen color, and captured red marbles
(initially 0), as in class `Player` of the source. -/
structure Player where
  name : String
  color : Cell
  captured : Nat
deriving DecidableEq, Repr

/-- The game state: the `_players` dict (modelled as an insertion-ordered
association list with unique keys), `_game_winner`, `_current_turn` and
`_game_board`. -/
structure GameState where
  players : List Player
  winner : Option String
  currentTurn : Option String
  board : Board
deriving DecidableEq, Repr

/-- Python `self._players[name]`: KeyError when the name is not a key. -/
def dictLookup (ps : List Player) (n : String) : Except PyErr Player :=
  match ps.find? (fun p => p.name == n) with
  | some p => .ok p
  | none => .error .keyError

/-- The read-only walk of `_check_selfdefeating_rule`: same cursor motion
as `_move_marble`, but no writes; at the far boundary, if the cell read
holds the player's color the rule is violated (`false`), otherwise the
traveling value is forced to "X" so the loop ends. -/
def selfLoop (d : Dir) (col : Cell) : Nat → Board → Int → Int → Cell →
    Except PyErr Bool
  | 0, _, _, _, _ => .error .indexError
  | fuel + 1, b, r, c, cur =>
    if cur = Cell.X then .ok true
    else
      match pyGet2 b (r + (dirStep d).1) (c + (dirStep d).2) with
      | .error e => .error e
      | .ok v =>
        if atFarEdge d (r + (dirStep d).1) (c + (dirStep d).2) = true then
          if v = col then .ok false
          else selfLoop d col fuel b (r + (dirStep d).1) (c + (dirStep d).2) Cell.X
        else selfLoop d col fuel b (r + (dirStep d).1) (c + (dirStep d).2) v

/-- The body of `_check_selfdefeating_rule`. -/
def checkSelfdefeating (s : GameState) (n : String) (pos : Int × Int) (d : Dir) :
    Except PyErr Bool :=
  match dictLookup s.players n with
  | .error e => .error e
  | .ok p =>
    match pyGet2 s.board pos.1 pos.2 with
    | .error e => .error e
    | .ok cur => selfLoop d p.color 20 s.board pos.1 pos.2 cur

/-- The `blocking_spot` tuple of `_check_open_marble`: the neighbor
opposite the push direction. -/
def blockSpot (pos : Int × Int) (d : Dir) : Int × Int :=
  match d with
  | .F => (pos.1 + 1, pos.2)
  | .B => (pos.1 - 1, pos.2)
  | .L => (pos.1, pos.2 + 1)
  | .R => (pos.1, pos.2 - 1)

/-- The body of `_check_open_marble`: off-board blocking indices count as
open, otherwise the blocking spot must hold "X". -/
def checkOpenMarble (b : Board) (pos : Int × Int) (d : Dir) :
    Except PyErr Bool :=
  if (blockSpot pos d).1 < 0 ∨ (blockSpot pos d).1 > 6 ∨
      (blockSpot pos d).2 < 0 ∨ (blockSpot pos d).2 > 6 then .ok true
  else
    match pyGet2 b (blockSpot pos d).1 (blockSpot pos d).2 with
    | .error e => .error e
    | .ok v => .ok (v = Cell.X)

/-- The inner comparison loop of `_check_ko_rule` over one row of the
simulated board.  `row_index` in the source is initialised to 0 and — due
to the mis-indented `row_index += 1`, which sits outside the outer `for`
loop — never changes, so every row is compared against
`get_marble((0, col_index))` of the live board. -/
def koCompareRow (live : Board) : List Cell → Int → Except PyErr Bool
  | [], _ => .ok false
  | m :: rest, j =>
    match pyGet2 live 0 j with
    | .error e => .error e
    | .ok v => if m ≠ v then .ok true else koCompareRow live rest (j + 1)

/-- The outer comparison loop of `_check_ko_rule`, over all rows of the
simulated board. -/
def koCompareRows (live : Board) : List (List Cell) → Except PyErr Bool
  | [] => .ok false
  | row :: rest =>
    match koCompareRow live row 0 with
    | .error e => .error e
    | .ok true => .ok true
    | .ok false => koCompareRows live rest

/-- The body of `_check_ko_rule`: simulate the push on a deep copy of the
live board and compare the result cell-by-cell against the live board
(row 0 of it, per the indexing slip).  `true` means the rule passes. -/
def checkKoRule (s : GameState) (pos : Int × Int) (d : Dir) :
    Except PyErr Bool :=
  match moveMarble s.board pos d with
  | .error e => .error e
  | .ok (sim, _) => koCompareRows s.board sim

/-- The body of `_validate_move`: the six short-circuiting checks, in
source order. -/
def validateMove (s : GameState) (n : String) (pos : Int × Int) (d : Dir) :
    Except PyErr Bool :=
  if s.currentTurn = some n ∨ s.currentTurn = none then
    if s.winner ≠ none then .ok false
    else
      match dictLookup s.players n with
      | .error e => .error e
      | .ok p =>
        match pyGet2 s.board pos.1 pos.2 with
        | .error e => .error e
        | .ok m =>
          if p.color ≠ m then .ok false
          else
            match checkOpenMarble s.board pos d with
            | .error e => .error e
            | .ok false => .ok false
            | .ok true =>
              match checkKoRule s pos d with
              | .error e => .error e
              | .ok false => .ok false
              | .ok true =>
                match checkSelfdefeating s n pos d with
                | .error e => .error e
                | .ok false => .ok false
                | .ok true => .ok true
  else .ok false

/-- The body of `_get_other_playername`: the first dict key different from
the given name, `none` when there is no such key. -/
def listOtherName (ps : List Player) (n : String) : Option String :=
  (ps.find? (fun p => p.name != n)).map Player.name

/-- Capture bookkeeping of `_move_marble` on the live board: the mover's
`_captured_red_marbles` is incremented.  Only applied by `makeMove` when
the expelled marble is red, mirroring the in-loop increments of the
source. -/
def incrementCaptured (ps : List Player) (n : String) : List Player :=
  ps.map (fun p => if p.name = n then { p with captured := p.captured + 1 } else p)

/-- Per-color marble count of `get_marble_count` (one component). -/
def countColor (b : Board) (x : Cell) : Nat :=
  (b.map (fun row => row.countP (fun m => m == x))).sum

/-- The body of `get_marble_count`: the (white, black, red) triple. -/
def getMarbleCount (b : Board) : Nat × Nat × Nat :=
  (countColor b Cell.W, countColor b Cell.B, countColor b Cell.R)

/-- Total number of marbles on the board (sum of the triple). -/
def totalMarbles (b : Board) : Nat :=
  countColor b Cell.W + countColor b Cell.B + countColor b Cell.R

/-- Board count under an arbitrary cell predicate; `countColor b x` is
`boardCountP (fun m => m == x) b`. -/
def boardCountP (p : Cell → Bool) (b : Board) : Nat :=
  (b.map (fun row => row.countP p)).sum

/-- Inner direction scan of `_check_all_moves_blocked`: `ok false` means a
valid move was found (so the opponent is not blocked). -/
def blockedScanDirs (s : GameState) (other : String) (i j : Int) :
    List Dir → Except PyErr Bool
  | [] => .ok true
  | d :: ds =>
    match validateMove s other (i, j) d with
    | .error e => .error e
    | .ok true => .ok false
    | .ok false => blockedScanDirs s other i j ds

/-- Column scan of `_check_all_moves_blocked` over one row. -/
def blockedScanRow (s : GameState) (other : String) (col : Cell) (i : Int) :
    List Cell → Int → Except PyErr Bool
  | [], _ => .ok true
  | m :: ms, j =>
    if m = col then
      match blockedScanDirs s other i j [Dir.F, Dir.B, Dir.L, Dir.R] with
      | .error e => .error e
      | .ok false => .ok false
      | .ok true => blockedScanRow s other col i ms (j + 1)
    else blockedScanRow s other col i ms (j + 1)

/-- Row scan of `_check_all_moves_blocked`. -/
def blockedScanRows (s : GameState) (other : String) (col : Cell) :
    List (List Cell) → Int → Except PyErr Bool
  | [], _ => .ok true
  | row :: rows, i =>
    match blockedScanRow s other col i row 0 with
    | .error e => .error e
    | .ok false => .ok false
    | .ok true => blockedScanRows s other col rows (i + 1)

/-- The body of `_check_all_moves_blocked`: look up the other player (a
`None` result from `_get_other_playername` makes the dict lookup raise
KeyError) and scan every cell of that player's color in all four
directions. -/
def checkAllMovesBlocked (s : GameState) (n : String) : Except PyErr Bool :=
  match listOtherName s.players n with
  | none => .error .keyError
  | some other =>
    match dictLookup s.players other with
    | .error e => .error e
    | .ok p => blockedScanRows s other p.color s.board 0

/-- The body of `_check_for_winner`: 7 captured reds, opponent color
eliminated, or opponent fully blocked. -/
def checkForWinner (s : GameState) (n : String) : Except PyErr Bool :=
  match dictLookup s.players n with
  | .error e => .error e
  | .ok p =>
    if p.captured > 6 then .ok true
    else
      if (if p.color = Cell.B then (getMarbleCount s.board).1 < 1
          else (getMarbleCount s.board).2.1 < 1) then .ok true
      else checkAllMovesBlocked s n

/-- The state reached inside a successful `make_move` right after the push
is committed: captures incremented when a red marble was expelled, the
turn flipped to the other player, the winner field still untouched. -/
def postMoveState (s : GameState) (n : String) (b2 : Board) (exp : Option Cell) :
    GameState :=
  { players := if exp = some Cell.R then incrementCaptured s.players n else s.players,
    winner := s.winner,
    currentTurn :=
      listOtherName (if exp = some Cell.R then incrementCaptured s.players n
                     else s.players) n,
    board := b2 }

/-- The body of `make_move`: validate, apply the push to the live board
(incrementing the mover's captures when a red marble is expelled), flip
the turn, then evaluate the win conditions and record the winner. -/
def makeMove (s : GameState) (n : String) (pos : Int × Int) (d : Dir) :
    Except PyErr (Bool × GameState) :=
  match validateMove s n pos d with
  | .error e => .error e
  | .ok false => .ok (false, s)
  | .ok true =>
    match moveMarble s.board pos d with
    | .error e => .error e
    | .ok (b2, exp) =>
      match checkForWinner (postMoveState s n b2 exp) n with
      | .error e => .error e
      | .ok true => .ok (true, { postMoveState s n b2 exp with winner := some n })
      | .ok false => .ok (true, postMoveState s n b2 exp)

/-- A `Player` object built from a (name, color) tuple, captures 0. -/
def mkPlayer (t : String × Cell) : Player :=
  { name := t.1, color := t.2, captured := 0 }

/-- The `_players` dict literal `{p1[0]: Player(p1), p2[0]: Player(p2)}`:
with equal keys the second value overwrites the first, leaving one entry. -/
def pyDict2 (a b : Player) : List Player :=
  if a.name = b.name then [b] else [a, b]

/-- The 7x7 all-"X" board the constructor starts from. -/
def emptyBoard : Board := List.replicate 7 (List.replicate 7 Cell.X)

/-- The board produced by the constructor's placement loops: white at the
two 2x2 corners, black at the other two, red in the central diamond. -/
def initialBoard : Board :=
  let b := emptyBoard
  let b := (List.range 2).foldl (fun b i => (List.range 2).foldl
    (fun b j => pySet2 (pySet2 b i j Cell.W) (6 - (i : Int)) (6 - (j : Int)) Cell.W) b) b
  let b := (List.range 2).foldl (fun b i => (List.range 2).foldl
    (fun b j => pySet2 (pySet2 b ((i : Int) + 5) j Cell.B) i ((j : Int) + 5) Cell.B) b) b
  [((1 : Int), (3 : Int)), (2, 2), (2, 3), (2, 4), (3, 1), (3, 2),
    (3, 3), (3, 4), (3, 5), (4, 2), (4, 3), (4, 4), (5, 3)].foldl
    (fun b p => pySet2 b p.1 p.2 Cell.R) b

/-- The constructor `KubaGame.__init__`: builds the players dict (no
validation of any kind), no winner, no current turn, and the initial
board. -/
def initGame (p1 p2 : String × Cell) : GameState :=
  { players := pyDict2 (mkPlayer p1) (mkPlayer p2),
    winner := none, currentTurn := none, board := initialBoard }

/-- A board is well-formed when it is 7x7, as every reachable
`_game_board` is. -/
def WF (b : Board) : Prop := b.length = 7 ∧ ∀ row ∈ b, row.length = 7

instance : DecidablePred WF := fun b => by
  unfold WF; infer_instance

/-- Coordinates from which the walk of the given direction can no longer
trigger its boundary expulsion test. -/
def outOfExpelRange (d : Dir) (r c : Int) : Prop :=
  match d with
  | .F => r ≤ 0
  | .B => 6 ≤ r
  | .L => c ≤ 0
  | .R => 6 ≤ c

/-- Cells strictly ahead of the cursor in the walk direction (same row or
column, further along). -/
def Ahead (d : Dir) (r c i j : Int) : Prop :=
  match d with
  | .F => j = c ∧ i < r
  | .B => j = c ∧ r < i
  | .L => i = r ∧ j < c
  | .R => i = r ∧ c < j

/-- Contribution of an expelled marble to a count under predicate `p`. -/
def expelCount (p : Cell → Bool) (exp : Option Cell) : Nat :=
  match exp with
  | some v => if p v = true then 1 else 0
  | none => 0

/-- One marble leaves the board when a push expels one, none otherwise. -/
def expelTally (exp : Option Cell) : Nat :=
  match exp with
  | some _ => 1
  | none => 0

/-! ### Concrete scenario states used by the claim theorems and witnesses -/

/-- An all-empty row. -/
def xRow : List Cell := List.replicate 7 Cell.X

/-- Ko scenario, board before the first move: W at (3,2), B at (3,3). -/
def koB0 : Board :=
  [xRow, xRow, xRow,
   [Cell.X, Cell.X, Cell.W, Cell.B, Cell.X, Cell.X, Cell.X],
   xRow, xRow, xRow]

/-- Ko scenario, board after A pushes (3,2) right: W at (3,3), B at (3,4). -/
def koB1 : Board :=
  [xRow, xRow, xRow,
   [Cell.X, Cell.X, Cell.X, Cell.W, Cell.B, Cell.X, Cell.X],
   xRow, xRow, xRow]

/-- Ko scenario, state before A's move. -/
def koS0 : GameState :=
  { players := [⟨"A", Cell.W, 0⟩, ⟨"B", Cell.B, 0⟩],
    winner := none, currentTurn := some "A", board := koB0 }

/-- Ko scenario, state after A's move (B to play). -/
def koS1 : GameState :=
  { players := [⟨"A", Cell.W, 0⟩, ⟨"B", Cell.B, 0⟩],
    winner := none, currentTurn := some "B", board := koB1 }

/-- Ko scenario, state after B's reverting move: the board is back to `koB0`. -/
def koS2 : GameState :=
  { players := [⟨"A", Cell.W, 0⟩, ⟨"B", Cell.B, 0⟩],
    winner := none, currentTurn := some "A", board := koB0 }

/-- A board with a single white marble at (3,3). -/
def c2Board : Board :=
  [xRow, xRow, xRow,
   [Cell.X, Cell.X, Cell.X, Cell.W, Cell.X, Cell.X, Cell.X],
   xRow, xRow, xRow]

/-- The board after pushing (3,3) 'L': the marble sits at (3,2). -/
def c2After : Board :=
  [xRow, xRow, xRow,
   [Cell.X, Cell.X, Cell.W, Cell.X, Cell.X, Cell.X, Cell.X],
   xRow, xRow, xRow]

/-- A board with a single white marble at (0,0), on the boundary facing 'F'. -/
def c3Board : Board :=
  [[Cell.W, Cell.X, Cell.X, Cell.X, Cell.X, Cell.X, Cell.X],
   xRow, xRow, xRow, xRow, xRow, xRow]

/-- The board the code produces for that push: the marble has wrapped to
the opposite edge cell (6,0) instead of being expelled. -/
def c3After : Board :=
  [xRow, xRow, xRow, xRow, xRow, xRow,
   [Cell.W, Cell.X, Cell.X, Cell.X, Cell.X, Cell.X, Cell.X]]

/-- A board with a single white marble at (6,0), on the boundary facing 'B'. -/
def c3BoardB : Board :=
  [xRow, xRow, xRow, xRow, xRow, xRow,
   [Cell.W, Cell.X, Cell.X, Cell.X, Cell.X, Cell.X, Cell.X]]

/-- Self-elimination scenario: two white marbles at (3,5),(3,6); pushing
(3,5) right would expel the white marble at (3,6). -/
def c5Board : Board :=
  [xRow, xRow, xRow,
   [Cell.X, Cell.X, Cell.X, Cell.X, Cell.X, Cell.W, Cell.W],
   xRow, xRow, xRow]

/-- The simulated board of that push: the pushed marble at (3,6), one
white expelled. -/
def c5After : Board :=
  [xRow, xRow, xRow,
   [Cell.X, Cell.X, Cell.X, Cell.X, Cell.X, Cell.X, Cell.W],
   xRow, xRow, xRow]

/-- Self-elimination scenario state, A (white) to move. -/
def c5State : GameState :=
  { players := [⟨"A", Cell.W, 0⟩, ⟨"B", Cell.B, 0⟩],
    winner := none, currentTurn := some "A", board := c5Board }

/-- Win-threshold scenario: A has 6 captures; W at (3,5) can push the red
marble at (3,6) off the right edge.  A black marble at (4,6) keeps the
opponent on the board. -/
def c6Board : Board :=
  [xRow, xRow, xRow,
   [Cell.X, Cell.X, Cell.X, Cell.X, Cell.X, Cell.W, Cell.R],
   [Cell.X, Cell.X, Cell.X, Cell.X, Cell.X, Cell.X, Cell.B],
   xRow, xRow]

/-- Win-threshold scenario state before the capturing move. -/
def c6State : GameState :=
  { players := [⟨"A", Cell.W, 6⟩, ⟨"B", Cell.B, 0⟩],
    winner := none, currentTurn := some "A", board := c6Board }

/-- Win-threshold scenario state after the capturing move: 7 captures,
winner recorded in the same call. -/
def c6StateAfter : GameState :=
  { players := [⟨"A", Cell.W, 7⟩, ⟨"B", Cell.B, 0⟩],
    winner := some "A", currentTurn := some "B",
    board :=
      [xRow, xRow, xRow,
       [Cell.X, Cell.X, Cell.X, Cell.X, Cell.X, Cell.X, Cell.W],
       [Cell.X, Cell.X, Cell.X, Cell.X, Cell.X, Cell.X, Cell.B],
       xRow, xRow] }

/-- A freshly constructed game with players ("A","W") and ("B","B"). -/
def freshGame : GameState := initGame ("A", Cell.W) ("B", Cell.B)

/-- The state after the opening move `make_move("A", (0,0), 'B')` on the
fresh game: the white marble run slid one step down column 0, turn flipped
to "B". -/
def afterOpen : GameState :=
  { players := [⟨"A", Cell.W, 0⟩, ⟨"B", Cell.B, 0⟩],
    winner := none, currentTurn := some "B",
    board :=
      [[Cell.X, Cell.W, Cell.X, Cell.X, Cell.X, Cell.B, Cell.B],
       [Cell.W, Cell.W, Cell.X, Cell.R, Cell.X, Cell.B, Cell.B],
       [Cell.W, Cell.X, Cell.R, Cell.R, Cell.R, Cell.X, Cell.X],
       [Cell.X, Cell.R, Cell.R, Cell.R, Cell.R, Cell.R, Cell.X],
       [Cell.X, Cell.X, Cell.R, Cell.R, Cell.R, Cell.X, Cell.X],
       [Cell.B, Cell.B, Cell.X, Cell.R, Cell.X, Cell.W, Cell.W],
       [Cell.B, Cell.B, Cell.X, Cell.X, Cell.X, Cell.W, Cell.W]] }

end Kuba

namespace Kuba

lemma pyIdx_of_nonneg_lt {n : Nat} {i : Int} (h0 : 0 ≤ i) (h1 : i < (n : Int)) :
    pyIdx n i = some i.toNat := by
  unfold pyIdx
  rw [if_pos ⟨h0, h1⟩]

lemma pyIdx_of_nonneg_ge {n : Nat} {i : Int} (h0 : 0 ≤ i) (h1 : (n : Int) ≤ i) :
    pyIdx n i = none := by
  unfold pyIdx
  rw [if_neg (by omega), if_neg (by omega)]

lemma pyIdx_nonneg_some {n : Nat} {i : Int} {k : Nat} (h0 : 0 ≤ i)
    (h : pyIdx n i = some k) : k = i.toNat ∧ i < (n : Int) := by
  unfold pyIdx at h
  split at h
  · next hc => exact ⟨(Option.some.inj h).symm, hc.2⟩
  · next hc =>
    split at h
    · next hc2 => omega
    · exact absurd h (by simp)

lemma pyGetList_ok_decomp {α : Type} {l : List α} {i : Int} {a : α}
    (h : pyGetList l i = .ok a) :
    ∃ k, pyIdx l.length i = some k ∧ l.get? k = some a := by
  unfold pyGetList at h
  split at h
  · exact absurd h (by simp)
  · next k hk =>
    split at h
    · exact absurd h (by simp)
    · next a' ha => exact ⟨k, hk, by rw [ha]; simpa using h⟩

lemma pyGet2_ok_split {b : Board} {i j : Int} {v : Cell} (h : pyGet2 b i j = .ok v) :
    ∃ row, pyGetList b i = .ok row ∧ pyGetList row j = .ok v := by
  unfold pyGet2 at h
  split at h
  · exact absurd h (by simp)
  · next row hrow => exact ⟨row, hrow, h⟩

lemma pyGetList_eq_of_some {α : Type} {l : List α} {i : Int} {k : Nat}
    (hk : pyIdx l.length i = some k) :
    pyGetList l i = match l.get? k with
      | none => .error .indexError
      | some a => .ok a := by
  unfold pyGetList
  rw [hk]

lemma pySet2_eq_of_none {b : Board} {i : Int} (j : Int) (w : Cell)
    (hk : pyIdx b.length i = none) : pySet2 b i j w = b := by
  unfold pySet2
  rw [hk]

lemma pySet2_eq_of_getnone {b : Board} {i : Int} (j : Int) (w : Cell) {k : Nat}
    (hk : pyIdx b.length i = some k) (hrow : b.get? k = none) :
    pySet2 b i j w = b := by
  unfold pySet2
  rw [hk]
  show (match b.get? k with
    | none => b
    | some row => b.set k (pySetList row j w)) = b
  rw [hrow]

lemma pySet2_eq_of_some {b : Board} {i : Int} (j : Int) (w : Cell) {k : Nat}
    {row : List Cell} (hk : pyIdx b.length i = some k) (hrow : b.get? k = some row) :
    pySet2 b i j w = b.set k (pySetList row j w) := by
  unfold pySet2
  rw [hk]
  show (match b.get? k with
    | none => b
    | some row => b.set k (pySetList row j w)) = _
  rw [hrow]

lemma pyGet2_ok_decomp {b : Board} {i j : Int} {v : Cell} (h : pyGet2 b i j = .ok v) :
    ∃ k row k2, pyIdx b.length i = some k ∧ b.get? k = some row ∧
      pyIdx row.length j = some k2 ∧ row.get? k2 = some v ∧
      ∀ w, pySet2 b i j w = b.set k (row.set k2 w) := by
  obtain ⟨row, hb, hr⟩ := pyGet2_ok_split h
  obtain ⟨k, hk, hrow⟩ := pyGetList_ok_decomp hb
  obtain ⟨k2, hk2, hcell⟩ := pyGetList_ok_decomp hr
  refine ⟨k, row, k2, hk, hrow, hk2, hcell, fun w => ?_⟩
  rw [pySet2_eq_of_some j w hk hrow]
  unfold pySetList
  rw [hk2]

lemma pyGetList_nonneg {α : Type} (l : List α) {i : Int} (h0 : 0 ≤ i) :
    pyGetList l i = match l.get? i.toNat with
      | none => .error .indexError
      | some a => .ok a := by
  unfold pyGetList
  rcases lt_or_le i (l.length : Int) with h1 | h1
  · rw [pyIdx_of_nonneg_lt h0 h1]
  · rw [pyIdx_of_nonneg_ge h0 h1, List.get?_len_le (by omega)]

lemma pyGetList_set_ne {α : Type} (l : List α) {i : Int} {k : Nat} (a : α)
    (h0 : 0 ≤ i) (hne : i.toNat ≠ k) :
    pyGetList (l.set k a) i = pyGetList l i := by
  rw [pyGetList_nonneg _ h0, pyGetList_nonneg _ h0,
    List.get?_set_ne a l (Ne.symm hne)]

lemma pySetList_nonneg {α : Type} (l : List α) {i : Int} (a : α) (h0 : 0 ≤ i) :
    pySetList l i a = l.set i.toNat a := by
  unfold pySetList
  rcases lt_or_le i (l.length : Int) with h1 | h1
  · rw [pyIdx_of_nonneg_lt h0 h1]
  · rw [pyIdx_of_nonneg_ge h0 h1, List.set_eq_of_length_le (by omega)]

lemma pyGet2_pySet2_ne {b : Board} {i j i' j' : Int} (w : Cell)
    (hi : 0 ≤ i) (hj : 0 ≤ j) (hi' : 0 ≤ i') (hj' : 0 ≤ j')
    (hne : i ≠ i' ∨ j ≠ j') :
    pyGet2 (pySet2 b i' j' w) i j = pyGet2 b i j := by
  cases hk : pyIdx b.length i' with
  | none => rw [pySet2_eq_of_none j' w hk]
  | some k =>
    cases hrow : b.get? k with
    | none => rw [pySet2_eq_of_getnone j' w hk hrow]
    | some row =>
      obtain ⟨hk', hlt⟩ := pyIdx_nonneg_some hi' hk
      subst hk'
      rw [pySet2_eq_of_some j' w hk hrow]
      by_cases hrows : i.toNat = i'.toNat
      · have hii : i = i' := by omega
        rcases hne with hne | hne
        · exact absurd hii hne
        · unfold pyGet2
          rw [pyGetList_nonneg _ hi, pyGetList_nonneg _ hi, hrows,
            List.get?_set_eq_of_lt _ (by omega), hrow]
          rw [pySetList_nonneg _ _ hj']
          show pyGetList (row.set j'.toNat w) j = pyGetList row j
          exact pyGetList_set_ne _ _ hj (by omega)
      · unfold pyGet2
        rw [pyGetList_nonneg _ hi, pyGetList_nonneg _ hi,
          List.get?_set_ne _ _ (Ne.symm hrows)]

lemma countP_set_get {α : Type} (p : α → Bool) :
    ∀ (l : List α) (k : Nat) (v a : α), l.get? k = some v →
      (l.set k a).countP p + (if p v = true then 1 else 0) =
        l.countP p + (if p a = true then 1 else 0)
  | [], k, v, a, h => by simp at h
  | x :: xs, 0, v, a, h => by
    have hxv : x = v := by simpa using h
    subst hxv
    simp only [List.set, List.countP_cons]
    omega
  | x :: xs, k + 1, v, a, h => by
    have h2 : xs.get? k = some v := by simpa using h
    have ih := countP_set_get p xs k v a h2
    simp only [List.set, List.countP_cons]
    omega

lemma sum_map_set {α : Type} (f : α → Nat) :
    ∀ (l : List α) (k : Nat) (v a : α), l.get? k = some v →
      ((l.set k a).map f).sum + f v = (l.map f).sum + f a
  | [], k, v, a, h => by simp at h
  | x :: xs, 0, v, a, h => by
    have hxv : x = v := by simpa using h
    subst hxv
    simp only [List.set, List.map_cons, List.sum_cons]
    omega
  | x :: xs, k + 1, v, a, h => by
    have h2 : xs.get? k = some v := by simpa using h
    have ih := sum_map_set f xs k v a h2
    simp only [List.set, List.map_cons, List.sum_cons]
    omega

lemma boardCountP_pySet2 (p : Cell → Bool) {b : Board} {i j : Int} {v : Cell}
    (w : Cell) (h : pyGet2 b i j = .ok v) :
    boardCountP p (pySet2 b i j w) + (if p v = true then 1 else 0) =
      boardCountP p b + (if p w = true then 1 else 0) := by
  obtain ⟨k, row, k2, hk, hrow, hk2, hcell, hset⟩ := pyGet2_ok_decomp h
  rw [hset w]
  unfold boardCountP
  have h1 := sum_map_set (fun row => row.countP p) b k row (row.set k2 w) hrow
  simp only at h1
  have h2 := countP_set_get p row k2 v w hcell
  omega

lemma length_pySetList {α : Type} (l : List α) (i : Int) (a : α) :
    (pySetList l i a).length = l.length := by
  unfold pySetList
  split
  · rfl
  · exact List.length_set ..

lemma WF_pySet2 {b : Board} (h : WF b) (i j : Int) (v : Cell) :
    WF (pySet2 b i j v) := by
  cases hk : pyIdx b.length i with
  | none => rw [pySet2_eq_of_none j v hk]; exact h
  | some k =>
    cases hrow : b.get? k with
    | none => rw [pySet2_eq_of_getnone j v hk hrow]; exact h
    | some row =>
      rw [pySet2_eq_of_some j v hk hrow]
      constructor
      · rw [List.length_set]; exact h.1
      · intro row2 hmem
        rcases List.mem_or_eq_of_mem_set hmem with hmem | hmem
        · exact h.2 row2 hmem
        · rw [hmem, length_pySetList]
          exact h.2 row (List.get?_mem hrow)


/-! ### Push-walk lemmas -/

lemma pushLoop_cur_X (d : Dir) (fuel : Nat) (b : Board) (r c : Int)
    {b2 : Board} {v : Cell} :
    pushLoop d fuel b r c Cell.X ≠ .ok (b2, some v) := by
  cases fuel with
  | zero => simp [pushLoop]
  | succ fuel => simp [pushLoop]

lemma pushLoop_expel_ne_X (d : Dir) :
    ∀ fuel b r c cur b2 v, pushLoop d fuel b r c cur = .ok (b2, some v) →
      v ≠ Cell.X := by
  intro fuel
  induction fuel with
  | zero => intro b r c cur b2 v h; simp [pushLoop] at h
  | succ fuel ih =>
    intro b r c cur b2 v h
    rw [pushLoop] at h
    by_cases hcur : cur = Cell.X
    · rw [if_pos hcur] at h; exact absurd h (by simp)
    · rw [if_neg hcur] at h
      split at h
      · exact absurd h (by simp)
      · next w hv =>
        split at h
        · next hedge =>
          have h1 : b2 = pySet2 b (r + (dirStep d).1) (c + (dirStep d).2) cur ∧
              v = w := by simpa using h.symm
          rw [h1.2]
          exact hedge.2
        · exact ih _ _ _ _ _ _ h

lemma pushLoop_no_expel_out (d : Dir) :
    ∀ fuel b r c cur b2 v, outOfExpelRange d r c →
      pushLoop d fuel b r c cur ≠ .ok (b2, some v) := by
  intro fuel
  induction fuel with
  | zero => intro b r c cur b2 v hout h; simp [pushLoop] at h
  | succ fuel ih =>
    intro b r c cur b2 v hout h
    rw [pushLoop] at h
    by_cases hcur : cur = Cell.X
    · rw [if_pos hcur] at h; exact absurd h (by simp)
    · rw [if_neg hcur] at h
      split at h
      · exact absurd h (by simp)
      · next w hv =>
        split at h
        · next hedge =>
          have h1 := hedge.1
          cases d with
          | F =>
            have hout2 : r ≤ 0 := hout
            have h2 : ((r + -1 : Int) == 0) = true := h1
            have h3 : (r + -1 : Int) = 0 := eq_of_beq h2
            omega
          | B =>
            have hout2 : (6 : Int) ≤ r := hout
            have h2 : ((r + 1 : Int) == 6) = true := h1
            have h3 : (r + 1 : Int) = 6 := eq_of_beq h2
            omega
          | L =>
            have hout2 : c ≤ 0 := hout
            have h2 : ((c + -1 : Int) == 0) = true := h1
            have h3 : (c + -1 : Int) = 0 := eq_of_beq h2
            omega
          | R =>
            have hout2 : (6 : Int) ≤ c := hout
            have h2 : ((c + 1 : Int) == 6) = true := h1
            have h3 : (c + 1 : Int) = 6 := eq_of_beq h2
            omega
        · refine ih _ _ _ _ _ _ ?_ h
          cases d with
          | F =>
            have hout2 : r ≤ 0 := hout
            show (r + -1 : Int) ≤ 0
            omega
          | B =>
            have hout2 : (6 : Int) ≤ r := hout
            show (6 : Int) ≤ r + 1
            omega
          | L =>
            have hout2 : c ≤ 0 := hout
            show (c + -1 : Int) ≤ 0
            omega
          | R =>
            have hout2 : (6 : Int) ≤ c := hout
            show (6 : Int) ≤ c + 1
            omega

lemma pushLoop_countP (p : Cell → Bool) (hp : p Cell.X = false) (d : Dir) :
    ∀ fuel b r c cur b2 exp, pushLoop d fuel b r c cur = .ok (b2, exp) →
      boardCountP p b2 + expelCount p exp =
      boardCountP p b + (if p cur = true then 1 else 0) := by
  intro fuel
  induction fuel with
  | zero => intro b r c cur b2 exp h; simp [pushLoop] at h
  | succ fuel ih =>
    intro b r c cur b2 exp h
    rw [pushLoop] at h
    by_cases hcur : cur = Cell.X
    · rw [if_pos hcur] at h
      have h1 : b = b2 ∧ (none : Option Cell) = exp := by simpa using h
      rw [← h1.1, ← h1.2, hcur, hp]
      simp [expelCount]
    · rw [if_neg hcur] at h
      split at h
      · exact absurd h (by simp)
      · next w hv =>
        have hbc := boardCountP_pySet2 p cur hv
        split at h
        · next hedge =>
          have h1 : pySet2 b (r + (dirStep d).1) (c + (dirStep d).2) cur = b2 ∧
              (some w : Option Cell) = exp := by simpa using h
          rw [← h1.1, ← h1.2]
          exact hbc
        · have ih2 := ih _ _ _ _ _ _ h
          rw [ih2]
          exact hbc

lemma pushLoop_WF (d : Dir) :
    ∀ fuel b r c cur b2 exp, WF b → pushLoop d fuel b r c cur = .ok (b2, exp) →
      WF b2 := by
  intro fuel
  induction fuel with
  | zero => intro b r c cur b2 exp hwf h; simp [pushLoop] at h
  | succ fuel ih =>
    intro b r c cur b2 exp hwf h
    rw [pushLoop] at h
    by_cases hcur : cur = Cell.X
    · rw [if_pos hcur] at h
      have h1 : b = b2 ∧ (none : Option Cell) = exp := by simpa using h
      exact h1.1 ▸ hwf
    · rw [if_neg hcur] at h
      split at h
      · exact absurd h (by simp)
      · next w hv =>
        split at h
        · next hedge =>
          have h1 : pySet2 b (r + (dirStep d).1) (c + (dirStep d).2) cur = b2 ∧
              (some w : Option Cell) = exp := by simpa using h
          exact h1.1 ▸ WF_pySet2 hwf _ _ _
        · exact ih _ _ _ _ _ _ (WF_pySet2 hwf _ _ _) h

lemma moveMarble_decomp {b : Board} {pos : Int × Int} {d : Dir} {b2 : Board}
    {exp : Option Cell} (h : moveMarble b pos d = .ok (b2, exp)) :
    ∃ m, pyGet2 b pos.1 pos.2 = .ok m ∧
      pushLoop d 20 (pySet2 b pos.1 pos.2 Cell.X) pos.1 pos.2 m = .ok (b2, exp) := by
  unfold moveMarble at h
  split at h
  · exact absurd h (by simp)
  · next m hm => exact ⟨m, hm, h⟩

lemma moveMarble_countP (p : Cell → Bool) (hp : p Cell.X = false)
    {b : Board} {pos : Int × Int} {d : Dir} {b2 : Board} {exp : Option Cell}
    (h : moveMarble b pos d = .ok (b2, exp)) :
    boardCountP p b2 + expelCount p exp = boardCountP p b := by
  obtain ⟨m, hm, hpush⟩ := moveMarble_decomp h
  have h1 := pushLoop_countP p hp d 20 _ _ _ _ _ _ hpush
  have h2 := boardCountP_pySet2 p Cell.X hm
  rw [hp] at h2
  have h0 : (if (false = true) then 1 else 0) = 0 := rfl
  rw [h0] at h2
  omega

lemma moveMarble_WF {b : Board} {pos : Int × Int} {d : Dir} {b2 : Board}
    {exp : Option Cell} (hwf : WF b) (h : moveMarble b pos d = .ok (b2, exp)) :
    WF b2 := by
  obtain ⟨m, hm, hpush⟩ := moveMarble_decomp h
  exact pushLoop_WF d 20 _ _ _ _ _ _ (WF_pySet2 hwf _ _ _) hpush

lemma moveMarble_expel_ne_X {b : Board} {pos : Int × Int} {d : Dir} {b2 : Board}
    {v : Cell} (h : moveMarble b pos d = .ok (b2, some v)) : v ≠ Cell.X := by
  obtain ⟨m, hm, hpush⟩ := moveMarble_decomp h
  exact pushLoop_expel_ne_X d 20 _ _ _ _ _ _ hpush



/-! ### Correspondence between the push walk and the self-defeat walk -/

lemma Ahead_step (d : Dir) (r c : Int) :
    Ahead d r c (r + (dirStep d).1) (c + (dirStep d).2) := by
  cases d with
  | F => exact ⟨show c + 0 = c by omega, show r + -1 < r by omega⟩
  | B => exact ⟨show c + 0 = c by omega, show r < r + 1 by omega⟩
  | L => exact ⟨show r + 0 = r by omega, show c + -1 < c by omega⟩
  | R => exact ⟨show r + 0 = r by omega, show c < c + 1 by omega⟩

lemma Ahead_mono (d : Dir) (r c i j : Int)
    (h : Ahead d (r + (dirStep d).1) (c + (dirStep d).2) i j) : Ahead d r c i j := by
  cases d with
  | F => have h2 : j = c + 0 ∧ i < r + -1 := h; exact ⟨by omega, by omega⟩
  | B => have h2 : j = c + 0 ∧ r + 1 < i := h; exact ⟨by omega, by omega⟩
  | L => have h2 : i = r + 0 ∧ j < c + -1 := h; exact ⟨by omega, by omega⟩
  | R => have h2 : i = r + 0 ∧ c + 1 < j := h; exact ⟨by omega, by omega⟩

lemma Ahead_ne (d : Dir) (r c i j : Int) (h : Ahead d r c i j) :
    i ≠ r ∨ j ≠ c := by
  cases d with
  | F => have h2 : j = c ∧ i < r := h; exact Or.inl (by omega)
  | B => have h2 : j = c ∧ r < i := h; exact Or.inl (by omega)
  | L => have h2 : i = r ∧ j < c := h; exact Or.inr (by omega)
  | R => have h2 : i = r ∧ c < j := h; exact Or.inr (by omega)

lemma step_in_range (d : Dir) {r c : Int} (hr0 : 0 ≤ r) (hr6 : r ≤ 6)
    (hc0 : 0 ≤ c) (hc6 : c ≤ 6) (hout : ¬ outOfExpelRange d r c) :
    0 ≤ r + (dirStep d).1 ∧ r + (dirStep d).1 ≤ 6 ∧
      0 ≤ c + (dirStep d).2 ∧ c + (dirStep d).2 ≤ 6 := by
  cases d with
  | F =>
    have h2 : ¬ (r ≤ 0) := hout
    exact ⟨show (0:Int) ≤ r + -1 by omega, show r + -1 ≤ (6:Int) by omega,
      show (0:Int) ≤ c + 0 by omega, show c + 0 ≤ (6:Int) by omega⟩
  | B =>
    have h2 : ¬ ((6 : Int) ≤ r) := hout
    exact ⟨show (0:Int) ≤ r + 1 by omega, show r + 1 ≤ (6:Int) by omega,
      show (0:Int) ≤ c + 0 by omega, show c + 0 ≤ (6:Int) by omega⟩
  | L =>
    have h2 : ¬ (c ≤ 0) := hout
    exact ⟨show (0:Int) ≤ r + 0 by omega, show r + 0 ≤ (6:Int) by omega,
      show (0:Int) ≤ c + -1 by omega, show c + -1 ≤ (6:Int) by omega⟩
  | R =>
    have h2 : ¬ ((6 : Int) ≤ c) := hout
    exact ⟨show (0:Int) ≤ r + 0 by omega, show r + 0 ≤ (6:Int) by omega,
      show (0:Int) ≤ c + 1 by omega, show c + 1 ≤ (6:Int) by omega⟩

lemma selfLoop_of_pushLoop (d : Dir) :
    ∀ fuel (bP bO : Board) (r c : Int) (cur : Cell) (b2 : Board) (v : Cell),
      0 ≤ r → r ≤ 6 → 0 ≤ c → c ≤ 6 →
      (∀ i j : Int, 0 ≤ i → i ≤ 6 → 0 ≤ j → j ≤ 6 → Ahead d r c i j →
          pyGet2 bP i j = pyGet2 bO i j) →
      pushLoop d fuel bP r c cur = .ok (b2, some v) →
      selfLoop d v fuel bO r c cur = .ok false := by
  intro fuel
  induction fuel with
  | zero =>
    intro bP bO r c cur b2 v _ _ _ _ _ hpush
    simp [pushLoop] at hpush
  | succ fuel ih =>
    intro bP bO r c cur b2 v hr0 hr6 hc0 hc6 hag hpush
    by_cases hout : outOfExpelRange d r c
    · exact absurd hpush (pushLoop_no_expel_out d (fuel + 1) bP r c cur b2 v hout)
    · have hstep := step_in_range d hr0 hr6 hc0 hc6 hout
      rw [pushLoop] at hpush
      rw [selfLoop]
      by_cases hcur : cur = Cell.X
      · rw [if_pos hcur] at hpush
        exact absurd hpush (by simp)
      · rw [if_neg hcur] at hpush
        rw [if_neg hcur]
        have hagStep := hag (r + (dirStep d).1) (c + (dirStep d).2)
          hstep.1 hstep.2.1 hstep.2.2.1 hstep.2.2.2 (Ahead_step d r c)
        split at hpush
        · exact absurd hpush (by simp)
        · next w hv =>
          have hvO : pyGet2 bO (r + (dirStep d).1) (c + (dirStep d).2) = .ok w :=
            hagStep.symm.trans hv
          simp only [hvO]
          by_cases hedge : atFarEdge d (r + (dirStep d).1) (c + (dirStep d).2) = true
          · rw [if_pos hedge]
            by_cases hwX : w = Cell.X
            · rw [if_neg (fun hc => hc.2 hwX)] at hpush
              subst hwX
              exact absurd hpush (pushLoop_cur_X d fuel _ _ _)
            · rw [if_pos ⟨hedge, hwX⟩] at hpush
              have h1 : pySet2 bP (r + (dirStep d).1) (c + (dirStep d).2) cur = b2 ∧
                  w = v := by simpa using hpush
              rw [if_pos h1.2]
          · rw [if_neg hedge]
            rw [if_neg (fun hc => hedge hc.1)] at hpush
            refine ih (pySet2 bP (r + (dirStep d).1) (c + (dirStep d).2) cur) bO
              (r + (dirStep d).1) (c + (dirStep d).2) w b2 v
              hstep.1 hstep.2.1 hstep.2.2.1 hstep.2.2.2 ?_ hpush
            intro i j hi0 hi6 hj0 hj6 hA
            rw [pyGet2_pySet2_ne cur hi0 hj0 hstep.1 hstep.2.2.1
              (Ahead_ne d _ _ i j hA)]
            exact hag i j hi0 hi6 hj0 hj6 (Ahead_mono d r c i j hA)



/-! ### No-error helpers for in-range reads on a 7x7 board -/

lemma pyGetList_ok_of_get? {α : Type} {l : List α} {i : Int} {a : α}
    (h0 : 0 ≤ i) (h : l.get? i.toNat = some a) : pyGetList l i = .ok a := by
  rw [pyGetList_nonneg _ h0, h]

lemma pyGet2_eq_of_rows {b : Board} {i : Int} (j : Int) {row : List Cell}
    (hb : pyGetList b i = .ok row) : pyGet2 b i j = pyGetList row j := by
  unfold pyGet2
  rw [hb]

lemma pyGet2_WF_ok {b : Board} (h : WF b) {i j : Int}
    (h0 : 0 ≤ i) (h1 : i ≤ 6) (h2 : 0 ≤ j) (h3 : j ≤ 6) :
    ∃ v, pyGet2 b i j = .ok v := by
  obtain ⟨hlen, hrows⟩ := h
  have hi : i.toNat < b.length := by omega
  obtain ⟨row, hrow⟩ : ∃ row, b.get? i.toNat = some row := by
    rw [List.get?_eq_get hi]
    exact ⟨_, rfl⟩
  have hrowO := pyGetList_ok_of_get? h0 hrow
  have hrowlen : row.length = 7 := hrows _ (List.get?_mem hrow)
  have hj : j.toNat < row.length := by omega
  obtain ⟨v, hv⟩ : ∃ v, row.get? j.toNat = some v := by
    rw [List.get?_eq_get hj]
    exact ⟨_, rfl⟩
  refine ⟨v, ?_⟩
  rw [pyGet2_eq_of_rows j hrowO]
  exact pyGetList_ok_of_get? h2 hv

lemma checkOpen_ok {b : Board} (h : WF b) (pos : Int × Int) (d : Dir) :
    ∃ v, checkOpenMarble b pos d = .ok v := by
  unfold checkOpenMarble
  split
  · exact ⟨true, rfl⟩
  · next hin =>
    push_neg at hin
    obtain ⟨v, hv⟩ := pyGet2_WF_ok h hin.1 hin.2.1 hin.2.2.1 hin.2.2.2
    rw [hv]
    exact ⟨_, rfl⟩

lemma koCompareRow_ok {live : Board} (h : WF live) :
    ∀ (row : List Cell) (j : Int), 0 ≤ j → j + row.length ≤ 7 →
      ∃ bb, koCompareRow live row j = .ok bb := by
  intro row
  induction row with
  | nil => intro j _ _; exact ⟨false, rfl⟩
  | cons m rest ih =>
    intro j hj0 hj7
    have hlen : (m :: rest).length = rest.length + 1 := rfl
    obtain ⟨v, hv⟩ := pyGet2_WF_ok h (i := 0) (j := j) le_rfl (by omega) hj0
      (by rw [hlen] at hj7; omega)
    rw [koCompareRow, hv]
    show ∃ bb, (if m ≠ v then Except.ok true
      else koCompareRow live rest (j + 1)) = Except.ok bb
    by_cases hmv : m ≠ v
    · rw [if_pos hmv]; exact ⟨true, rfl⟩
    · rw [if_neg hmv]
      exact ih (j + 1) (by omega) (by rw [hlen] at hj7; omega)

lemma koCompareRows_ok {live : Board} (h : WF live) :
    ∀ (rows : List (List Cell)), (∀ row ∈ rows, row.length = 7) →
      ∃ bb, koCompareRows live rows = .ok bb := by
  intro rows
  induction rows with
  | nil => intro _; exact ⟨false, rfl⟩
  | cons row rest ih =>
    intro hlens
    obtain ⟨b1, hb1⟩ := koCompareRow_ok h row 0 le_rfl
      (by rw [hlens row (by simp)]; omega)
    rw [koCompareRows, hb1]
    cases b1 with
    | true => exact ⟨true, rfl⟩
    | false => exact ih (fun r hr => hlens r (by simp [hr]))

/-! ### Player-dictionary lemmas -/

lemma incrementCaptured_name (p : Player) (n : String) :
    (if p.name = n then { p with captured := p.captured + 1 } else p).name = p.name := by
  split <;> rfl

lemma listOtherName_incrementCaptured (ps : List Player) (n m : String) :
    listOtherName (incrementCaptured ps n) m = listOtherName ps m := by
  induction ps with
  | nil => rfl
  | cons p ps ih =>
    unfold listOtherName incrementCaptured at ih ⊢
    simp only [List.map_cons, List.find?]
    rw [incrementCaptured_name]
    cases hb : (p.name != m) with
    | true => simp [incrementCaptured_name]
    | false => exact ih

lemma listOtherName_pair {p1 p2 : Player} (hne : p1.name ≠ p2.name) (n : String) :
    listOtherName [p1, p2] n = some (if n = p1.name then p2.name else p1.name) := by
  unfold listOtherName
  by_cases h1 : p1.name = n
  · have hb1 : (p1.name != n) = false := by simp [h1]
    have hb2 : (p2.name != n) = true := by
      rw [← h1]
      simp [Ne.symm hne]
    simp [List.find?, hb1, hb2, h1]
  · have hb1 : (p1.name != n) = true := by simp [h1]
    have hn1 : ¬ n = p1.name := fun hc => h1 hc.symm
    simp [List.find?, hb1, hn1]

lemma dictLookup_mem {ps : List Player} {n : String} {p : Player}
    (h : dictLookup ps n = .ok p) : p ∈ ps ∧ p.name = n := by
  unfold dictLookup at h
  split at h
  · next q hq =>
    have hpq : q = p := by simpa using h
    subst hpq
    refine ⟨List.mem_of_find?_eq_some hq, ?_⟩
    have := List.find?_some hq
    simpa using this
  · exact absurd h (by simp)



/-! ### Decomposition of `make_move` -/

lemma makeMove_ok_false {s : GameState} {n : String} {pos : Int × Int} {d : Dir}
    {s2 : GameState} (h : makeMove s n pos d = .ok (false, s2)) :
    s2 = s ∧ validateMove s n pos d = .ok false := by
  unfold makeMove at h
  split at h
  · exact absurd h (by simp)
  · next hval => exact ⟨by simpa using h.symm, hval⟩
  · next hval =>
    split at h
    · exact absurd h (by simp)
    · split at h
      · exact absurd h (by simp)
      · exact absurd h (by simp)
      · exact absurd h (by simp)

lemma makeMove_ok_true {s : GameState} {n : String} {pos : Int × Int} {d : Dir}
    {s2 : GameState} (h : makeMove s n pos d = .ok (true, s2)) :
    validateMove s n pos d = .ok true ∧
    ∃ b2 exp w, moveMarble s.board pos d = .ok (b2, exp) ∧
      checkForWinner (postMoveState s n b2 exp) n = .ok w ∧
      s2 = (if w then { postMoveState s n b2 exp with winner := some n }
            else postMoveState s n b2 exp) := by
  unfold makeMove at h
  split at h
  · exact absurd h (by simp)
  · exact absurd h (by simp)
  · next hval =>
    split at h
    · exact absurd h (by simp)
    · next b2 exp hmv =>
      split at h
      · exact absurd h (by simp)
      · next hw =>
        refine ⟨hval, b2, exp, true, hmv, hw, ?_⟩
        have h2 : { postMoveState s n b2 exp with winner := some n } = s2 := by
          simpa using h
        rw [← h2]
        rfl
      · next hw =>
        refine ⟨hval, b2, exp, false, hmv, hw, ?_⟩
        have h2 : postMoveState s n b2 exp = s2 := by simpa using h
        rw [← h2]
        rfl

lemma validateMove_of_winner {s : GameState} (hw : s.winner ≠ none)
    (n : String) (pos : Int × Int) (d : Dir) :
    validateMove s n pos d = .ok false := by
  unfold validateMove
  by_cases ht : s.currentTurn = some n ∨ s.currentTurn = none
  · rw [if_pos ht, if_pos hw]
  · rw [if_neg ht]

lemma makeMove_of_winner {s : GameState} (hw : s.winner ≠ none)
    (n : String) (pos : Int × Int) (d : Dir) :
    makeMove s n pos d = .ok (false, s) := by
  unfold makeMove
  rw [validateMove_of_winner hw n pos d]

lemma checkForWinner_captured {s : GameState} {n : String} {p : Player}
    (hp : dictLookup s.players n = .ok p) (hc : 6 < p.captured) :
    checkForWinner s n = .ok true := by
  unfold checkForWinner
  rw [hp]
  show (if p.captured > 6 then Except.ok true
    else if (if p.color = Cell.B then (getMarbleCount s.board).1 < 1
        else (getMarbleCount s.board).2.1 < 1) then Except.ok true
      else checkAllMovesBlocked s n) = Except.ok true
  rw [if_pos hc]

lemma moveMarble_total {b : Board} {pos : Int × Int} {d : Dir} {b2 : Board}
    {exp : Option Cell} (h : moveMarble b pos d = .ok (b2, exp)) :
    totalMarbles b = totalMarbles b2 + expelTally exp := by
  have hW := moveMarble_countP (fun m => m == Cell.W) rfl h
  have hB := moveMarble_countP (fun m => m == Cell.B) rfl h
  have hR := moveMarble_countP (fun m => m == Cell.R) rfl h
  cases exp with
  | none =>
    have e1 : expelCount (fun m => m == Cell.W) none = 0 := rfl
    have e2 : expelCount (fun m => m == Cell.B) none = 0 := rfl
    have e3 : expelCount (fun m => m == Cell.R) none = 0 := rfl
    rw [e1] at hW; rw [e2] at hB; rw [e3] at hR
    show totalMarbles b = totalMarbles b2 + 0
    show boardCountP (fun m => m == Cell.W) b + boardCountP (fun m => m == Cell.B) b +
      boardCountP (fun m => m == Cell.R) b = boardCountP (fun m => m == Cell.W) b2 +
      boardCountP (fun m => m == Cell.B) b2 + boardCountP (fun m => m == Cell.R) b2 + 0
    omega
  | some v =>
    have hvx := moveMarble_expel_ne_X h
    cases v with
    | X => exact absurd rfl hvx
    | W =>
      have e1 : expelCount (fun m => m == Cell.W) (some Cell.W) = 1 := rfl
      have e2 : expelCount (fun m => m == Cell.B) (some Cell.W) = 0 := rfl
      have e3 : expelCount (fun m => m == Cell.R) (some Cell.W) = 0 := rfl
      rw [e1] at hW; rw [e2] at hB; rw [e3] at hR
      show boardCountP (fun m => m == Cell.W) b + boardCountP (fun m => m == Cell.B) b +
        boardCountP (fun m => m == Cell.R) b = boardCountP (fun m => m == Cell.W) b2 +
        boardCountP (fun m => m == Cell.B) b2 + boardCountP (fun m => m == Cell.R) b2 + 1
      omega
    | B =>
      have e1 : expelCount (fun m => m == Cell.W) (some Cell.B) = 0 := rfl
      have e2 : expelCount (fun m => m == Cell.B) (some Cell.B) = 1 := rfl
      have e3 : expelCount (fun m => m == Cell.R) (some Cell.B) = 0 := rfl
      rw [e1] at hW; rw [e2] at hB; rw [e3] at hR
      show boardCountP (fun m => m == Cell.W) b + boardCountP (fun m => m == Cell.B) b +
        boardCountP (fun m => m == Cell.R) b = boardCountP (fun m => m == Cell.W) b2 +
        boardCountP (fun m => m == Cell.B) b2 + boardCountP (fun m => m == Cell.R) b2 + 1
      omega
    | R =>
      have e1 : expelCount (fun m => m == Cell.W) (some Cell.R) = 0 := rfl
      have e2 : expelCount (fun m => m == Cell.B) (some Cell.R) = 0 := rfl
      have e3 : expelCount (fun m => m == Cell.R) (some Cell.R) = 1 := rfl
      rw [e1] at hW; rw [e2] at hB; rw [e3] at hR
      show boardCountP (fun m => m == Cell.W) b + boardCountP (fun m => m == Cell.B) b +
        boardCountP (fun m => m == Cell.R) b = boardCountP (fun m => m == Cell.W) b2 +
        boardCountP (fun m => m == Cell.B) b2 + boardCountP (fun m => m == Cell.R) b2 + 1
      omega



set_option maxRecDepth 200000

/-! ### Claim theorems -/

/-- C4: for every legal move accepted by `make_move`, the total number of
marbles on the board afterwards equals the total before minus 1 if a
marble was expelled off an edge and minus 0 otherwise; a single push never
removes more than one marble. -/
theorem kuba_conservation (s : GameState) (n : String) (pos : Int × Int)
    (d : Dir) (s2 : GameState) (h : makeMove s n pos d = .ok (true, s2)) :
    ∃ exp, moveMarble s.board pos d = .ok (s2.board, exp) ∧
      totalMarbles s.board = totalMarbles s2.board + expelTally exp := by
  obtain ⟨hval, b2, exp, w, hmv, hw, hs2⟩ := makeMove_ok_true h
  have hboard : s2.board = b2 := by rw [hs2]; cases w <;> rfl
  rw [hboard]
  exact ⟨exp, hmv, moveMarble_total hmv⟩

/-- C4 witness: the opening move `make_move("A", (0,0), 'B')` on a fresh
game is accepted and conserves all 29 marbles (no expulsion). -/
theorem kuba_conservation_witness :
    ∃ exp, moveMarble freshGame.board (0, 0) Dir.B = .ok (afterOpen.board, exp) ∧
      totalMarbles freshGame.board = totalMarbles afterOpen.board + expelTally exp :=
  kuba_conservation freshGame "A" (0, 0) Dir.B afterOpen rfl

/-- C6: capturing the 7th red marble in a move sets the winner to the
mover within the same `make_move` call, and once a winner is set every
subsequent `make_move` call is rejected with the state unchanged, so no
8th capture can occur and the winner never changes. -/
theorem kuba_win_threshold (s : GameState) (n : String) (pos : Int × Int)
    (d : Dir) (s2 : GameState) (p : Player)
    (h : makeMove s n pos d = .ok (true, s2))
    (hp : dictLookup s2.players n = .ok p) (hc : 6 < p.captured) :
    s2.winner = some n ∧
      ∀ n2 pos2 d2, makeMove s2 n2 pos2 d2 = .ok (false, s2) := by
  obtain ⟨hval, b2, exp, w, hmv, hw, hs2⟩ := makeMove_ok_true h
  have hplayers : s2.players = (postMoveState s n b2 exp).players := by
    rw [hs2]; cases w <;> rfl
  have hlook : dictLookup (postMoveState s n b2 exp).players n = .ok p := by
    rw [← hplayers]; exact hp
  have hwin := checkForWinner_captured hlook hc
  have hwtrue : w = true := by
    rw [hw] at hwin
    simpa using hwin
  subst hwtrue
  have hw2 : s2.winner = some n := by rw [hs2]; rfl
  exact ⟨hw2, fun n2 pos2 d2 => makeMove_of_winner (by rw [hw2]; simp) n2 pos2 d2⟩

/-- C6 witness: with 6 reds captured, pushing the red marble at (3,6) off
the right edge makes 7, sets the winner in the same call, and every later
move is rejected. -/
theorem kuba_win_threshold_witness :
    c6StateAfter.winner = some "A" ∧
      ∀ n2 pos2 d2, makeMove c6StateAfter n2 pos2 d2 = .ok (false, c6StateAfter) :=
  kuba_win_threshold c6State "A" (3, 5) Dir.R c6StateAfter ⟨"A", Cell.W, 7⟩
    rfl rfl (by decide)

/-- C7: for every successful `make_move` call on a game with two players
of distinct names, the current turn afterwards is the non-mover's name;
for every call returning false, the state (hence the turn) is unchanged. -/
theorem kuba_turn_alternation (s : GameState) (p1 p2 : Player)
    (hp : s.players = [p1, p2]) (hne : p1.name ≠ p2.name)
    (n : String) (pos : Int × Int) (d : Dir) :
    (∀ s2, makeMove s n pos d = .ok (true, s2) →
        s2.currentTurn = some (if n = p1.name then p2.name else p1.name)) ∧
    (∀ s2, makeMove s n pos d = .ok (false, s2) → s2 = s) := by
  constructor
  · intro s2 h
    obtain ⟨hval, b2, exp, w, hmv, hw, hs2⟩ := makeMove_ok_true h
    have hct : s2.currentTurn = (postMoveState s n b2 exp).currentTurn := by
      rw [hs2]; cases w <;> rfl
    rw [hct]
    show listOtherName (if exp = some Cell.R then incrementCaptured s.players n
        else s.players) n = _
    by_cases hexp : exp = some Cell.R
    · rw [if_pos hexp, hp, listOtherName_incrementCaptured, listOtherName_pair hne]
    · rw [if_neg hexp, hp, listOtherName_pair hne]
  · intro s2 h
    exact (makeMove_ok_false h).1

/-- C7 witness: the fresh-game opening move by "A" leaves the turn at "B". -/
theorem kuba_turn_alternation_witness :
    afterOpen.currentTurn = some (if "A" = "A" then "B" else "A") :=
  (kuba_turn_alternation freshGame ⟨"A", Cell.W, 0⟩ ⟨"B", Cell.B, 0⟩ rfl
    (by decide) "A" (0, 0) Dir.B).1 afterOpen rfl

/-- C8: every `make_move` call that returns false leaves the state (and in
particular the board) unchanged, and repeating the same illegal input
returns false again on the byte-identical state. -/
theorem kuba_idempotent_rejection (s : GameState) (n : String)
    (pos : Int × Int) (d : Dir) (s2 : GameState)
    (h : makeMove s n pos d = .ok (false, s2)) :
    s2 = s ∧ makeMove s2 n pos d = .ok (false, s2) := by
  have hs := (makeMove_ok_false h).1
  subst hs
  exact ⟨rfl, h⟩

/-- C8 witness: `make_move("A", (3,3), 'F')` on the fresh game is illegal
(the cell holds a red marble, not "A"'s color) and rejection is idempotent. -/
theorem kuba_idempotent_rejection_witness :
    freshGame = freshGame ∧ makeMove freshGame "A" (3, 3) Dir.F = .ok (false, freshGame) :=
  kuba_idempotent_rejection freshGame "A" (3, 3) Dir.F freshGame rfl

/-- C10: before the first move (current turn unset, no winner), calling
`make_move` with a name that is not a key of the players dict raises
KeyError from the player-color lookup instead of returning false. -/
theorem kuba_keyerror_unknown_name (s : GameState) (n : String)
    (pos : Int × Int) (d : Dir)
    (hturn : s.currentTurn = none) (hwin : s.winner = none)
    (hn : ∀ p ∈ s.players, p.name ≠ n) :
    makeMove s n pos d = .error PyErr.keyError := by
  have hl : dictLookup s.players n = .error PyErr.keyError := by
    unfold dictLookup
    have hfind : s.players.find? (fun p => p.name == n) = none :=
      List.find?_eq_none.mpr (fun p hp => by simpa using hn p hp)
    rw [hfind]
  have hval : validateMove s n pos d = .error PyErr.keyError := by
    unfold validateMove
    rw [if_pos (Or.inr hturn), if_neg (by simp [hwin]), hl]
  unfold makeMove
  rw [hval]

/-- C10 witness: calling `make_move` with the unknown name "Z" on the
fresh game raises KeyError. -/
theorem kuba_keyerror_unknown_name_witness :
    makeMove freshGame "Z" (0, 0) Dir.F = .error PyErr.keyError :=
  kuba_keyerror_unknown_name freshGame "Z" (0, 0) Dir.F rfl rfl (by decide)



/-- C5: a push whose simulation (under the engine's own semantics) would
expel a marble of the mover's own color off the edge is rejected by
`make_move`, which returns false with the state unchanged, regardless of
the outcome of the other validation rules. -/
theorem kuba_self_elimination (s : GameState) (n : String) (p : Player)
    (pos : Int × Int) (d : Dir) (b2 : Board)
    (hwf : WF s.board)
    (hp : dictLookup s.players n = .ok p)
    (hr0 : 0 ≤ pos.1) (hr6 : pos.1 ≤ 6) (hc0 : 0 ≤ pos.2) (hc6 : pos.2 ≤ 6)
    (hsim : moveMarble s.board pos d = .ok (b2, some p.color)) :
    makeMove s n pos d = .ok (false, s) := by
  obtain ⟨m, hm, hpush⟩ := moveMarble_decomp hsim
  have hag : ∀ i j : Int, 0 ≤ i → i ≤ 6 → 0 ≤ j → j ≤ 6 →
      Ahead d pos.1 pos.2 i j →
      pyGet2 (pySet2 s.board pos.1 pos.2 Cell.X) i j = pyGet2 s.board i j := by
    intro i j hi0 hi6 hj0 hj6 hA
    rw [pyGet2_pySet2_ne Cell.X hi0 hj0 hr0 hc0 (Ahead_ne d pos.1 pos.2 i j hA)]
  have hself : checkSelfdefeating s n pos d = .ok false := by
    have hcorr := selfLoop_of_pushLoop d 20 (pySet2 s.board pos.1 pos.2 Cell.X)
      s.board pos.1 pos.2 m b2 p.color hr0 hr6 hc0 hc6 hag hpush
    unfold checkSelfdefeating
    rw [hp]
    show (match pyGet2 s.board pos.1 pos.2 with
      | Except.error e => Except.error e
      | Except.ok cur => selfLoop d p.color 20 s.board pos.1 pos.2 cur) =
      Except.ok false
    rw [hm]
    exact hcorr
  have hko_ok : ∃ bb, checkKoRule s pos d = .ok bb := by
    have hwf2 := moveMarble_WF hwf hsim
    obtain ⟨bb, hbb⟩ := koCompareRows_ok hwf b2 hwf2.2
    refine ⟨bb, ?_⟩
    unfold checkKoRule
    rw [hsim]
    exact hbb
  have hval : validateMove s n pos d = .ok false := by
    unfold validateMove
    split
    · split
      · rfl
      · split
        · next e he => rw [hp] at he; exact absurd he (by simp)
        · next q hq =>
          split
          · next e he => rw [hm] at he; exact absurd he (by simp)
          · next m2 hm2 =>
            split
            · rfl
            · split
              · next e he =>
                obtain ⟨vo, hvo⟩ := checkOpen_ok hwf pos d
                rw [hvo] at he
                exact absurd he (by simp)
              · rfl
              · split
                · next e he =>
                  obtain ⟨bb, hbb⟩ := hko_ok
                  rw [hbb] at he
                  exact absurd he (by simp)
                · rfl
                · split
                  · next e he => rw [hself] at he; exact absurd he (by simp)
                  · rfl
                  · next htrue =>
                    rw [hself] at htrue
                    exact absurd htrue (by simp)
    · rfl
  unfold makeMove
  rw [hval]

/-- C5 witness: pushing (3,5) right with two white marbles at (3,5),(3,6)
would expel "A"'s own white marble, and the move is rejected unchanged. -/
theorem kuba_self_elimination_witness :
    makeMove c5State "A" (3, 5) Dir.R = .ok (false, c5State) :=
  kuba_self_elimination c5State "A" ⟨"A", Cell.W, 0⟩ (3, 5) Dir.R c5After
    (by decide) rfl (by decide) (by decide) (by decide) (by decide) rfl



/-- C2 counterexample: pushing the lone white marble at (3,3) with 'L'
moves it to (3,2) — the column index DEcreases — refuting the claimed
mapping Left=(0,+1), Right=(0,-1). -/
theorem kuba_left_decreases_column :
    moveMarble c2Board (3, 3) Dir.L = .ok (c2After, none) ∧
    pyGet2 c2Board 3 3 = .ok Cell.W ∧
    pyGet2 c2After 3 2 = .ok Cell.W ∧
    pyGet2 c2After 3 4 = .ok Cell.X := ⟨rfl, rfl, rfl, rfl⟩

/-- C2 (amended): the code's direction mapping is F=(-1,0), B=(+1,0),
L=(0,-1), R=(0,+1); pushing a marble whose in-range destination cell is
empty moves it one step by exactly that displacement ('F' decreases the
row index, 'B' increases it, 'L' decreases the column index, 'R'
increases it). -/
theorem kuba_direction_vectors (b : Board) (r c : Int) (m : Cell) (d : Dir)
    (hm : pyGet2 b r c = .ok m) (hmX : m ≠ Cell.X)
    (hr0 : 0 ≤ r) (hc0 : 0 ≤ c)
    (hd0 : 0 ≤ r + (dirStep d).1) (hd6 : r + (dirStep d).1 ≤ 6)
    (he0 : 0 ≤ c + (dirStep d).2) (he6 : c + (dirStep d).2 ≤ 6)
    (hdest : pyGet2 b (r + (dirStep d).1) (c + (dirStep d).2) = .ok Cell.X) :
    dirStep Dir.F = (-1, 0) ∧ dirStep Dir.B = (1, 0) ∧
    dirStep Dir.L = (0, -1) ∧ dirStep Dir.R = (0, 1) ∧
    moveMarble b (r, c) d =
      .ok (pySet2 (pySet2 b r c Cell.X) (r + (dirStep d).1) (c + (dirStep d).2) m,
        none) := by
  refine ⟨rfl, rfl, rfl, rfl, ?_⟩
  have hne : r + (dirStep d).1 ≠ r ∨ c + (dirStep d).2 ≠ c :=
    Ahead_ne d r c _ _ (Ahead_step d r c)
  have hget : pyGet2 (pySet2 b r c Cell.X) (r + (dirStep d).1) (c + (dirStep d).2)
      = .ok Cell.X := by
    rw [pyGet2_pySet2_ne Cell.X hd0 he0 hr0 hc0 hne]
    exact hdest
  unfold moveMarble
  show (match pyGet2 b r c with
    | Except.error e => Except.error e
    | Except.ok cur => pushLoop d 20 (pySet2 b r c Cell.X) r c cur) =
    Except.ok (pySet2 (pySet2 b r c Cell.X) (r + (dirStep d).1)
      (c + (dirStep d).2) m, none)
  rw [hm]
  show pushLoop d 20 (pySet2 b r c Cell.X) r c m =
    Except.ok (pySet2 (pySet2 b r c Cell.X) (r + (dirStep d).1)
      (c + (dirStep d).2) m, none)
  rw [show (20 : Nat) = 19 + 1 from rfl, pushLoop, if_neg hmX, hget]
  show (if atFarEdge d (r + (dirStep d).1) (c + (dirStep d).2) = true ∧
      Cell.X ≠ Cell.X then
      Except.ok (pySet2 (pySet2 b r c Cell.X) (r + (dirStep d).1)
        (c + (dirStep d).2) m, some Cell.X)
    else pushLoop d 19 (pySet2 (pySet2 b r c Cell.X) (r + (dirStep d).1)
      (c + (dirStep d).2) m) (r + (dirStep d).1) (c + (dirStep d).2) Cell.X) =
    Except.ok (pySet2 (pySet2 b r c Cell.X) (r + (dirStep d).1)
      (c + (dirStep d).2) m, none)
  rw [if_neg (fun hc => hc.2 rfl)]
  rw [show (19 : Nat) = 18 + 1 from rfl, pushLoop, if_pos rfl]

/-- C2 witness: the amended displacement at the concrete 'L' push of the
counterexample board. -/
theorem kuba_direction_vectors_witness :
    dirStep Dir.F = (-1, 0) ∧ dirStep Dir.B = (1, 0) ∧
    dirStep Dir.L = (0, -1) ∧ dirStep Dir.R = (0, 1) ∧
    moveMarble c2Board (3, 3) Dir.L =
      .ok (pySet2 (pySet2 c2Board 3 3 Cell.X) (3 + (dirStep Dir.L).1)
        (3 + (dirStep Dir.L).2) Cell.W, none) :=
  kuba_direction_vectors c2Board 3 3 Cell.W Dir.L rfl (by decide) (by decide)
    (by decide) (by decide) (by decide) (by decide) (by decide) rfl

/-- C9 counterexample: constructing a game from two descriptors with the
duplicate name "A" does not fail: a game state is produced, and its
players dict has a single entry (the second descriptor overwrote the
first under the shared key). -/
theorem kuba_duplicate_names_cex :
    initGame ("A", Cell.W) ("A", Cell.B) =
      { players := [⟨"A", Cell.B, 0⟩], winner := none, currentTurn := none,
        board := initialBoard } ∧
    (initGame ("A", Cell.W) ("A", Cell.B)).players.length ≠ 2 :=
  ⟨rfl, by decide⟩

/-- C9 (amended): the constructor performs no duplicate-name validation;
with equal names it succeeds and returns a game whose players dict holds
exactly one Player — the second descriptor's — with no winner, no current
turn, and the standard initial board. -/
theorem kuba_duplicate_names_overwrite (p1 p2 : String × Cell)
    (h : p1.1 = p2.1) :
    initGame p1 p2 = { players := [mkPlayer p2], winner := none,
                       currentTurn := none, board := initialBoard } := by
  unfold initGame pyDict2
  rw [if_pos (show (mkPlayer p1).name = (mkPlayer p2).name from h)]

/-- C9 amended-claim witness at the concrete duplicate-name input. -/
theorem kuba_duplicate_names_overwrite_witness :
    initGame ("A", Cell.W) ("A", Cell.B) =
      { players := [mkPlayer ("A", Cell.B)], winner := none,
        currentTurn := none, board := initialBoard } :=
  kuba_duplicate_names_overwrite ("A", Cell.W) ("A", Cell.B) rfl

/-- C1: the Ko check retains no pre-move snapshot and compares the
simulated board against the live board (and only against its row 0, due
to the misplaced row-index increment), so a move that exactly reverts the
opponent's last move passes the Ko check and is accepted: A pushes (3,2)
right, then B pushes (3,4) left and the board returns to its state before
A's move. -/
theorem kuba_ko_accepts_reversal :
    makeMove koS0 "A" (3, 2) Dir.R = .ok (true, koS1) ∧
    checkKoRule koS1 (3, 4) Dir.L = .ok true ∧
    makeMove koS1 "B" (3, 4) Dir.L = .ok (true, koS2) ∧
    koS2.board = koS0.board := ⟨rfl, rfl, rfl, rfl⟩

/-- C3: a push whose origin lies on the boundary facing off-board does
not expel that marble: for 'F' (and 'L') the Python negative index wraps,
the walk reads and writes the opposite edge cell and the marble reappears
there with no expulsion reported, while for 'B' (and 'R') the walk reads
index 7 and raises IndexError. -/
theorem kuba_edge_wrap_or_indexerror :
    moveMarble c3Board (0, 0) Dir.F = .ok (c3After, none) ∧
    pyGet2 c3After 6 0 = .ok Cell.W ∧
    pyGet2 c3After 0 0 = .ok Cell.X ∧
    moveMarble c3BoardB (6, 0) Dir.B = .error PyErr.indexError :=
  ⟨rfl, rfl, rfl, rfl⟩


end Kuba
